import Mathlib

/-!
# Verification of the screenshot/response processing pipeline

Shallow embedding of the core of the `interview-coder-withoupaywall-opensource`
repository: the response parser and request orchestration of
`electron/ProcessingHelper.ts`, and the configuration store of
`ConfigHelper.ts`.

Conventions of the embedding:
* JS strings are `List Char` internally, `String` at the API boundary.
* The JS regular expressions used by the source are small and concrete, so each
  one is embedded as a dedicated scanning function whose semantics match the
  regex engine (leftmost match, greedy/lazy quantifiers, backtracking) on all
  inputs; the correspondence is argued in the comment of each function.
* `JSON.parse` is embedded as an executable recursive-descent parser for the
  JSON grammar (fuel-based so that it reduces in the kernel).
* Asynchronous I/O (the chat-completions HTTP call, screenshot file reads) is
  embedded as explicit oracle parameters: an `ApiOutcome` describing how the
  upstream call resolved, and `String → Bool` oracles for file existence /
  readability.  Mutable helper state becomes a `ProcState` record threaded
  through the functions; `webContents.send` becomes an emitted event list.
-/

namespace InterviewCoder

/-! ## JS string primitives -/

/-- The characters treated as whitespace by JavaScript's `\s` class and
`String.prototype.trim` (ASCII whitespace, NBSP, BOM and the Unicode
line/paragraph separators; the rarely used fixed-width Unicode spaces are
included via the U+2000–U+200A range). -/
def isJsWs (c : Char) : Bool :=
  c = ' ' || c = '\t' || c = '\n' || c = '\r' ||
  c = '\x0b' || c = '\x0c' || c = '\u00A0' ||
  c = '\u1680' || ('\u2000' ≤ c && c ≤ '\u200A') ||
  c = '\u2028' || c = '\u2029' || c = '\u202F' || c = '\u205F' ||
  c = '\u3000' || c = '\uFEFF'

/-- JS `\w` character class: `[A-Za-z0-9_]`. -/
def isWordChar (c : Char) : Bool :=
  ('a' ≤ c && c ≤ 'z') || ('A' ≤ c && c ≤ 'Z') || ('0' ≤ c && c ≤ '9') || c = '_'

/-- `String.prototype.trim`, on the left. -/
def jsTrimLeft (cs : List Char) : List Char := cs.dropWhile isJsWs

/-- `String.prototype.trim`, on the right. -/
def jsTrimRight (cs : List Char) : List Char := (cs.reverse.dropWhile isJsWs).reverse

/-- `String.prototype.trim`. -/
def jsTrim (cs : List Char) : List Char := jsTrimRight (jsTrimLeft cs)

/-- `String.prototype.indexOf`: index of the first occurrence of `pat` in `s`
(the first `i` such that `pat` is a prefix of `s.drop i`), `none` if absent. -/
def listFindIdx (pat : List Char) : List Char → Option Nat
  | [] => if pat.isPrefixOf [] then some 0 else none
  | s@(_ :: t) => if pat.isPrefixOf s then some 0 else (listFindIdx pat t).map (· + 1)

/-- `s.includes(pat)` for JS strings. -/
def containsSub (s pat : String) : Bool := (listFindIdx pat.toList s.toList).isSome

/-- Capture group of `s.match(/D([\s\S]*?)D/)` for a literal delimiter `D`:
the text strictly between the first occurrence of `D` and the next occurrence
of `D` after it.  This matches the regex engine exactly: the lazy group forces
the shortest gap, and a match attempt can only start at an occurrence of `D`
that is followed by another occurrence, which (occurrences being found left to
right) is decided at the first occurrence of `D`. -/
def matchBetween (s pat : List Char) : Option (List Char) :=
  match listFindIdx pat s with
  | none => none
  | some i =>
    let rest := s.drop (i + pat.length)
    match listFindIdx pat rest with
    | none => none
    | some j => some (rest.take j)

/-- The markdown fence token. -/
def fencePat : List Char := "```".toList

/-- Capture of `seg.match(/```(?:\w+)?\s*([\s\S]*?)```/)` (ProcessingHelper.ts
line 452).  The regex can only start matching at an occurrence of the literal
fence; `(?:\w+)?` and `\s*` are greedy over the disjoint classes `\w` and `\s`
(neither contains a backtick), and the lazy capture then ends at the next fence
occurrence.  Backtracking the greedy parts can never expose a backtick, so the
maximal-munch scan below is exactly the regex's behaviour; when no further
fence occurrence exists the regex fails at every later start position too. -/
def fenceInner (s : List Char) : Option (List Char) :=
  match listFindIdx fencePat s with
  | none => none
  | some i =>
    let r1 := (s.drop (i + 3)).dropWhile isWordChar
    let r2 := r1.dropWhile isJsWs
    match listFindIdx fencePat r2 with
    | none => none
    | some j => some (r2.take j)

def isAsciiLetter (c : Char) : Bool := ('a' ≤ c && c ≤ 'z') || ('A' ≤ c && c ≤ 'Z')

/-- Capture of `debugContent.match(/```(?:[a-zA-Z]+)?([\s\S]*?)```/)`
(ProcessingHelper.ts line 688); same argument as `fenceInner`, without the
whitespace skip. -/
def fenceInnerLetters (s : List Char) : Option (List Char) :=
  match listFindIdx fencePat s with
  | none => none
  | some i =>
    let r1 := (s.drop (i + 3)).dropWhile isAsciiLetter
    match listFindIdx fencePat r1 with
    | none => none
    | some j => some (r1.take j)

/-- Backtracking step for a greedy `\s*` (or `[ ]+`) followed by `([^\n]+)`:
the engine prefers the longest skip `k` and shrinks it until the remainder
starts with a character other than `'\n'`; the capture is then the maximal
`[^\n]+` run.  `pickK r k` tries skip lengths `k, k-1, …, 0`. -/
def pickK (r : List Char) : Nat → Option (List Char)
  | 0 =>
    match r with
    | c :: _ => if c ≠ '\n' then some (r.takeWhile (fun x => x ≠ '\n')) else none
    | [] => none
  | k + 1 =>
    match r.drop (k + 1) with
    | c :: rest =>
      if c ≠ '\n' then some ((c :: rest).takeWhile (fun x => x ≠ '\n')) else pickK r k
    | [] => pickK r k

/-- `\s*([^\n]+)` at a fixed position: greedy whitespace skip with
backtracking, then the line capture. -/
def wsCapture (r : List Char) : Option (List Char) :=
  pickK r (r.takeWhile isJsWs).length

/-- `:?\s*([^\n]+)`: the optional colon is greedy, falling back to the
colon-less alternative when the rest of the pattern fails. -/
def colonWsCapture (rest : List Char) : Option (List Char) :=
  match rest with
  | ':' :: r =>
    (match wsCapture r with
     | some cap => some cap
     | none => wsCapture rest)
  | _ => wsCapture rest

def charLowerEq (a b : Char) : Bool := a.toLower = b.toLower

/-- Case-insensitive literal prefix test (the `/i` flag on an alternation-free
literal). -/
def isPrefixOfCI : List Char → List Char → Bool
  | [], _ => true
  | _ :: _, [] => false
  | a :: as, b :: bs => charLowerEq a b && isPrefixOfCI as bs

/-- Capture of `seg.match(/LIT:?\s*([^\n]+)/i)` for a literal `LIT`
(ProcessingHelper.ts lines 505 and 508 with `LIT` = `Time complexity` /
`Space complexity`): leftmost position where the literal matches
case-insensitively and the tail pattern succeeds; on tail failure the engine
advances one position, which the recursion mirrors. -/
def scanForCapture (lit : List Char) : List Char → Option (List Char)
  | [] => none
  | s@(_ :: rest) =>
    if isPrefixOfCI lit s then
      match colonWsCapture (s.drop lit.length) with
      | some cap => some cap
      | none => scanForCapture lit rest
    else scanForCapture lit rest

/-! ## `JSON.parse`

An executable model of `JSON.parse` (ECMA-404 grammar: strict numbers, escape
sequences, no trailing garbage).  Caveats recorded here once: a `\uXXXX`
escape denoting a UTF-16 surrogate half has no `Char` counterpart and goes
through `Char.ofNat`'s fallback, and JS float semantics are modelled by exact
rationals — neither is observable in the claims, which only exercise strings,
arrays and objects. -/

inductive Json where
  | null
  | bool (b : Bool)
  | num (q : Rat)
  | str (s : String)
  | arr (elems : List Json)
  | obj (fields : List (String × Json))

/-- JSON insignificant whitespace. -/
def jsonWsChar (c : Char) : Bool := c = ' ' || c = '\t' || c = '\n' || c = '\r'

def skipJsonWs (cs : List Char) : List Char := cs.dropWhile jsonWsChar

def hexDigit (c : Char) : Option Nat :=
  let n := c.toNat
  if 48 ≤ n ∧ n ≤ 57 then some (n - 48)        -- '0'..'9'
  else if 97 ≤ n ∧ n ≤ 102 then some (n - 87)  -- 'a'..'f'
  else if 65 ≤ n ∧ n ≤ 70 then some (n - 55)   -- 'A'..'F'
  else none

/-- JSON string body after the opening quote: returns the decoded characters
and the remainder after the closing quote.  Raw control characters are a
syntax error, as in `JSON.parse`. -/
def parseJStringBody : List Char → Option (List Char × List Char)
  | [] => none
  | '"' :: rest => some ([], rest)
  | '\\' :: '"' :: r => (parseJStringBody r).map (fun p => ('"' :: p.1, p.2))
  | '\\' :: '\\' :: r => (parseJStringBody r).map (fun p => ('\\' :: p.1, p.2))
  | '\\' :: '/' :: r => (parseJStringBody r).map (fun p => ('/' :: p.1, p.2))
  | '\\' :: 'b' :: r => (parseJStringBody r).map (fun p => ('\x08' :: p.1, p.2))
  | '\\' :: 'f' :: r => (parseJStringBody r).map (fun p => ('\x0c' :: p.1, p.2))
  | '\\' :: 'n' :: r => (parseJStringBody r).map (fun p => ('\n' :: p.1, p.2))
  | '\\' :: 'r' :: r => (parseJStringBody r).map (fun p => ('\r' :: p.1, p.2))
  | '\\' :: 't' :: r => (parseJStringBody r).map (fun p => ('\t' :: p.1, p.2))
  | '\\' :: 'u' :: h1 :: h2 :: h3 :: h4 :: r =>
    match hexDigit h1, hexDigit h2, hexDigit h3, hexDigit h4 with
    | some a, some b, some c, some d =>
      (parseJStringBody r).map (fun p => (Char.ofNat (((a * 16 + b) * 16 + c) * 16 + d) :: p.1, p.2))
    | _, _, _, _ => none
  | '\\' :: _ => none
  | c :: rest =>
    if c.toNat < 0x20 then none
    else (parseJStringBody rest).map (fun p => (c :: p.1, p.2))

def digitsAcc : List Char → Nat → Nat
  | [], acc => acc
  | d :: ds, acc => digitsAcc ds (acc * 10 + (d.toNat - 48))

/-- The natural number denoted by a run of decimal digits. -/
def digitsToNat (ds : List Char) : Nat := digitsAcc ds 0

/-- JSON number: `-?(0|[1-9][0-9]*)(\.[0-9]+)?([eE][+-]?[0-9]+)?`,
evaluated exactly in `ℚ`. -/
def parseJNumber (cs : List Char) : Option (Rat × List Char) :=
  let signed := match cs with
    | '-' :: r => some (true, r)
    | _ => some (false, cs)
  match signed with
  | some (neg, cs1) =>
    match cs1 with
    | c :: _ =>
      if !c.isDigit then none
      else
        let intDigits := cs1.takeWhile Char.isDigit
        if intDigits.length > 1 && c = '0' then none
        else
          let cs2 := cs1.drop intDigits.length
          let fracRes : Option (List Char × List Char) :=
            match cs2 with
            | '.' :: r =>
              let fds := r.takeWhile Char.isDigit
              if fds = [] then none else some (fds, r.drop fds.length)
            | _ => some ([], cs2)
          match fracRes with
          | none => none
          | some (fds, cs3) =>
            let expRes : Option (Bool × List Char × List Char) :=
              match cs3 with
              | e :: r =>
                if e = 'e' || e = 'E' then
                  let (eneg, r1) := match r with
                    | '+' :: r2 => (false, r2)
                    | '-' :: r2 => (true, r2)
                    | _ => (false, r)
                  let eds := r1.takeWhile Char.isDigit
                  if eds = [] then none else some (eneg, eds, r1.drop eds.length)
                else some (false, [], cs3)
              | [] => some (false, [], cs3)
            match expRes with
            | none => none
            | some (eneg, eds, rest) =>
              let mantissa : Rat :=
                ((digitsToNat intDigits * 10 ^ fds.length + digitsToNat fds : Nat) : Rat) /
                  ((10 ^ fds.length : Nat) : Rat)
              let scaled : Rat :=
                if eds = [] then mantissa
                else if eneg then mantissa / ((10 ^ digitsToNat eds : Nat) : Rat)
                else mantissa * ((10 ^ digitsToNat eds : Nat) : Rat)
              some (if neg then -scaled else scaled, rest)
    | [] => none
  | none => none

/-- Parser mode: a whole value, the items of an array after `[`, or the
members of an object after `{` (both after the empty case was excluded). -/
inductive JMode where
  | val
  | arrItems
  | objItems

inductive JOut where
  | v (j : Json)
  | vs (js : List Json)
  | fs (kvs : List (String × Json))

/-- Recursive-descent core of `JSON.parse`, fuel-structural so it reduces in
the kernel.  Fields of an object are kept in document order; duplicate keys
are resolved by `getFieldLast` below (last one wins, as in `JSON.parse`). -/
def parseJ : Nat → JMode → List Char → Option (JOut × List Char)
  | 0, _, _ => none
  | f + 1, .val, cs0 =>
    let cs := skipJsonWs cs0
    match cs with
    | '{' :: rest =>
      (match skipJsonWs rest with
       | '}' :: r => some (.v (.obj []), r)
       | rest' =>
         match parseJ f .objItems rest' with
         | some (.fs kvs, r) => some (.v (.obj kvs), r)
         | _ => none)
    | '[' :: rest =>
      (match skipJsonWs rest with
       | ']' :: r => some (.v (.arr []), r)
       | rest' =>
         match parseJ f .arrItems rest' with
         | some (.vs js, r) => some (.v (.arr js), r)
         | _ => none)
    | '"' :: rest =>
      (match parseJStringBody rest with
       | some (scs, r) => some (.v (.str (String.mk scs)), r)
       | none => none)
    | rest =>
      if "true".toList.isPrefixOf rest then some (.v (.bool true), rest.drop 4)
      else if "false".toList.isPrefixOf rest then some (.v (.bool false), rest.drop 5)
      else if "null".toList.isPrefixOf rest then some (.v .null, rest.drop 4)
      else
        match parseJNumber rest with
        | some (q, r) => some (.v (.num q), r)
        | none => none
  | f + 1, .arrItems, cs =>
    (match parseJ f .val cs with
     | some (.v j, r) =>
       (match skipJsonWs r with
        | ',' :: r2 =>
          (match parseJ f .arrItems r2 with
           | some (.vs js, r3) => some (.vs (j :: js), r3)
           | _ => none)
        | ']' :: r2 => some (.vs [j], r2)
        | _ => none)
     | _ => none)
  | f + 1, .objItems, cs =>
    (match skipJsonWs cs with
     | '"' :: r =>
       (match parseJStringBody r with
        | some (kcs, r1) =>
          (match skipJsonWs r1 with
           | ':' :: r2 =>
             (match parseJ f .val r2 with
              | some (.v j, r3) =>
                (match skipJsonWs r3 with
                 | ',' :: r4 =>
                   (match parseJ f .objItems r4 with
                    | some (.fs kvs, r5) => some (.fs ((String.mk kcs, j) :: kvs), r5)
                    | _ => none)
                 | '}' :: r4 => some (.fs [(String.mk kcs, j)], r4)
                 | _ => none)
              | _ => none)
           | _ => none)
        | none => none)
     | _ => none)

/-- `JSON.parse`: a full value with nothing but whitespace after it, `none`
standing for the thrown `SyntaxError`. -/
def jsonParse (cs : List Char) : Option Json :=
  match parseJ (2 * cs.length + 2) .val cs with
  | some (.v j, rest) => if skipJsonWs rest = [] then some j else none
  | _ => none

/-- Property lookup with JS duplicate-key semantics (last occurrence wins). -/
def getFieldLast : List (String × Json) → String → Option Json
  | [], _ => none
  | (k, v) :: rest, key =>
    match getFieldLast rest key with
    | some r => some r
    | none => if k = key then some v else none

/-- JS property access `j.key`: `undefined` (here `none`) on anything but an
object with the key; the `null` receiver, which throws, is handled at the call
site. -/
def Json.getProp : Json → String → Option Json
  | .obj fs, key => getFieldLast fs key
  | _, _ => none

/-- JS truthiness of a parsed JSON value. -/
def Json.truthy : Json → Bool
  | .null => false
  | .bool b => b
  | .num q => decide (q ≠ 0)
  | .str s => decide (s ≠ "")
  | .arr _ => true
  | .obj _ => true

def Json.isArr : Json → Bool
  | .arr _ => true
  | _ => false

def Json.getElems : Json → List Json
  | .arr es => es
  | _ => []

/-- JS `String(x)` / template-literal stringification of a parsed JSON value
(arrays join with commas, `null` elements becoming empty; objects print as
`[object Object]`).  Fuel-structural over the nesting depth; callers pass a
fuel exceeding the depth of any value parsed from their input.  Number
formatting is the exact rational's, an approximation of JS float formatting
(no claim inspects a stringified number). -/
def Json.toJsStringF : Nat → Json → String
  | _, .null => "null"
  | _, .bool true => "true"
  | _, .bool false => "false"
  | _, .num q => toString q
  | _, .str s => s
  | 0, .arr _ => ""
  | f + 1, .arr es =>
    String.intercalate "," (es.map (fun e =>
      match e with
      | .null => ""
      | x => Json.toJsStringF f x))
  | _, .obj _ => "[object Object]"

/-! ## Response parsing (`processScreenshotsHelper`, lines 442-528) -/

def codeDelim : List Char := "---CODE---".toList
def thoughtsDelim : List Char := "---THOUGHTS---".toList
def complexityDelim : List Char := "---COMPLEXITY---".toList

structure SolutionData where
  code : String
  thoughts : List String
  time_complexity : String
  space_complexity : String
deriving DecidableEq, Repr

/-- Lines 450-454: `code` starts as `""`; a `---CODE---` section is searched,
then a fence inside it, each trimmed. -/
def extractCode (cs : List Char) : String :=
  match matchBetween cs codeDelim with
  | none => ""
  | some seg =>
    match fenceInner seg with
    | some inner => String.mk (jsTrim inner)
    | none => String.mk (jsTrim seg)

/-- Lines 456-501: the `---THOUGHTS---` block is `JSON.parse`d; four fields are
turned into tagged entries; when parsing throws (including the `null` result,
whose property access throws a `TypeError` inside the same `try`), the whole
trimmed block becomes one `[SOLUTION APPROACHES]` entry. -/
def extractThoughts (cs : List Char) : List String :=
  match matchBetween cs thoughtsDelim with
  | none => []
  | some seg =>
    let trimmed := jsTrim seg
    match jsonParse trimmed with
    | none => ["[SOLUTION APPROACHES] " ++ String.mk trimmed]
    | some .null => ["[SOLUTION APPROACHES] " ++ String.mk trimmed]
    | some tj =>
      let strOf := Json.toJsStringF (trimmed.length + 1)
      let qs := match tj.getProp "questions_to_ask" with
        | some v =>
          if v.truthy && v.isArr then v.getElems.map (fun q => "[QUESTIONS TO ASK] " ++ strOf q)
          else []
        | none => []
      let apps := match tj.getProp "solution_approaches" with
        | some v =>
          if v.truthy && v.isArr then v.getElems.map (fun a => "[SOLUTION APPROACHES] " ++ strOf a)
          else []
        | none => []
      let walk := match tj.getProp "walkthrough" with
        | some v => if v.truthy then ["[WALKTHROUGH] " ++ strOf v] else []
        | none => []
      let ecs := match tj.getProp "edge_cases" with
        | some v =>
          if v.truthy && v.isArr then v.getElems.map (fun e => "[EDGE CASES] " ++ strOf e)
          else []
        | none => []
      qs ++ apps ++ walk ++ ecs

/-- Lines 503-510. -/
def extractComplexities (cs : List Char) : String × String :=
  match matchBetween cs complexityDelim with
  | none => ("", "")
  | some seg =>
    let t := match scanForCapture "Time complexity".toList seg with
      | some cap => String.mk (jsTrim cap)
      | none => ""
    let s := match scanForCapture "Space complexity".toList seg with
      | some cap => String.mk (jsTrim cap)
      | none => ""
    (t, s)

/-- The pure parsing part of `processScreenshotsHelper` (lines 442-528),
including the placeholder defaults of lines 512-513 and 525. -/
def parseSolutionResponse (responseText : String) : SolutionData :=
  let cs := responseText.toList
  let thoughts := extractThoughts cs
  let cpx := extractComplexities cs
  { code := extractCode cs
    thoughts := if thoughts.length > 0 then thoughts
                else ["Solution approach based on efficiency and readability"]
    time_complexity := if cpx.1 = "" then "O(n) - Linear time complexity" else cpx.1
    space_complexity := if cpx.2 = "" then "O(n) - Linear space complexity" else cpx.2 }

/-! ## Debug-content parsing (`processExtraScreenshotsHelper`, lines 687-714) -/

structure DebugData where
  code : String
  debug_analysis : String
  thoughts : List String
  time_complexity : String
  space_complexity : String
deriving DecidableEq, Repr

/-- Does one alternative of a case-insensitive alternation match at the head?
Returns the length of the first (in alternation order) matching one. -/
def tryAltsCI (alts : List (List Char)) (s : List Char) : Option Nat :=
  match alts with
  | [] => none
  | a :: rest => if isPrefixOfCI a s then some a.length else tryAltsCI rest s

/-- `s.replace(/a|b|…/i, repl)`: the leftmost position wins, alternatives in
written order at equal positions; a single replacement. -/
def replaceFirstCI (alts : List (List Char)) (repl : List Char) : List Char → List Char
  | [] => []
  | s@(c :: rest) =>
    match tryAltsCI alts s with
    | some n => repl ++ s.drop n
    | none => c :: replaceFirstCI alts repl rest

/-- `(?:[-*•]|\d+\.)`: marker characters and the remainder. -/
def bulletMarker (r : List Char) : Option (List Char × List Char) :=
  match r with
  | c :: rest =>
    if c = '-' || c = '*' || c = '•' then some ([c], rest)
    else
      let ds := r.takeWhile Char.isDigit
      if ds ≠ [] then
        match r.drop ds.length with
        | '.' :: rest2 => some (ds ++ ['.'], rest2)
        | _ => none
      else none
  | [] => none

/-- `[ ]+([^\n]+)` after the marker: the greedy space run backtracks until the
capture can start on a non-newline character (spaces themselves qualify).
Returns (spaces consumed, capture, rest). -/
def bulletTail (r2 : List Char) : Nat → Option (List Char × List Char × List Char)
  | 0 => none
  | k + 1 =>
    match r2.drop (k + 1) with
    | c :: rest =>
      if c ≠ '\n' then
        let cap := (c :: rest).takeWhile (fun x => x ≠ '\n')
        some (r2.take (k + 1), cap, (c :: rest).drop cap.length)
      else bulletTail r2 k
    | [] => bulletTail r2 k

/-- `[ ]*(?:[-*•]|\d+\.)[ ]+([^\n]+)` anchored at the head: the full matched
text and the remainder. -/
def tryBulletBody (r : List Char) : Option (List Char × List Char) :=
  let sp := r.takeWhile (fun x => x = ' ')
  let r1 := r.drop sp.length
  match bulletMarker r1 with
  | none => none
  | some (mk, r2) =>
    match bulletTail r2 (r2.takeWhile (fun x => x = ' ')).length with
    | none => none
    | some (spUsed, cap, rest) => some (sp ++ mk ++ spUsed ++ cap, rest)

/-- `formatted.match(/(?:^|\n)[ ]*(?:[-*•]|\d+\.)[ ]+([^\n]+)/g)` (line 703):
the list of full matches.  `^` without the `m` flag only matches at the very
start; afterwards the leading alternative must consume a newline.  Scanning
resumes after each match, advancing one character on failure. -/
def bulletScan : Nat → List Char → Bool → List (List Char)
  | 0, _, _ => []
  | _ + 1, [], _ => []
  | fuel + 1, s@(c :: rest), atStart =>
    let attempt : Option (List Char × List Char) :=
      if atStart then
        match tryBulletBody s with
        | some p => some p
        | none => if c = '\n' then (tryBulletBody rest).map (fun p => ('\n' :: p.1, p.2)) else none
      else if c = '\n' then (tryBulletBody rest).map (fun p => ('\n' :: p.1, p.2))
      else none
    match attempt with
    | some (m, r) => m :: bulletScan fuel r false
    | none => bulletScan fuel rest false

/-- `point.replace(/^[ ]*(?:[-*•]|\d+\.)[ ]+/, '')` (line 705); unchanged when
the anchored prefix does not match (e.g. when the point starts with the
newline its own match consumed). -/
def stripBulletPrefix (point : List Char) : List Char :=
  let sp := point.takeWhile (fun x => x = ' ')
  let r1 := point.drop sp.length
  match bulletMarker r1 with
  | none => point
  | some (_, r2) =>
    let sp2 := r2.takeWhile (fun x => x = ' ')
    if sp2 = [] then point else r2.drop sp2.length

/-- Lines 687-714: fenced code (placeholder when absent or empty), heading
normalisation, bullet extraction. -/
def parseDebugResponse (debugContent : String) : DebugData :=
  let cs := debugContent.toList
  let extractedCode :=
    match fenceInnerLetters cs with
    | some inner => if inner = [] then "// Debug mode - see analysis below" else String.mk (jsTrim inner)
    | none => "// Debug mode - see analysis below"
  let formatted :=
    if !containsSub debugContent "# " && !containsSub debugContent "## " then
      (replaceFirstCI ["explanation".toList, "detailed analysis".toList] "## Explanation".toList
        (replaceFirstCI ["optimizations".toList, "performance improvements".toList] "## Optimizations".toList
          (replaceFirstCI ["code improvements".toList, "improvements".toList, "suggested changes".toList] "## Code Improvements".toList
            (replaceFirstCI ["issues identified".toList, "problems found".toList, "bugs found".toList] "## Issues Identified".toList cs))))
    else cs
  let bullets := bulletScan (formatted.length + 1) formatted true
  { code := extractedCode
    debug_analysis := String.mk formatted
    thoughts :=
      if bullets = [] then ["Debug analysis based on your screenshots"]
      else (bullets.map (fun p => String.mk (jsTrim (stripBulletPrefix p)))).take 5
    time_complexity := "N/A - Debug mode"
    space_complexity := "N/A - Debug mode" }

/-! ## Pipeline state

The mutable pieces of `ProcessingHelper` and its `deps`, as one record.  The
chat-completions call and the filesystem are oracles: an `ApiOutcome` says how
the single upstream call of an operation resolved (it is ignored when the code
never reaches the call), and `String → Bool` oracles decide `fs.existsSync` /
readability.  `webContents.send` becomes an emitted event list; a `Bool`
records whether the upstream call was issued. -/

structure ProblemInfo where
  problem_statement : String
  constraints : Option String := none
  solution_stub : Option String := none
  notes : Option String := none
deriving DecidableEq, Repr

structure ProcState where
  aiApiKey : String
  aiEndpoint : String
  aiModel : String
  language : String
  aiClientReady : Bool
  mainWindowPresent : Bool
  view : String
  screenshotQueue : List String
  extraScreenshotQueue : List String
  problemInfo : Option ProblemInfo
  hasDebugged : Bool
  mainAbortActive : Bool
  extraAbortActive : Bool
deriving DecidableEq, Repr

inductive Evt where
  | initialStart
  | noScreenshots
  | apiKeyInvalid
  | debugStart
  | processingStatus (message : String) (progress : Nat)
  | solutionSuccess
  | initialSolutionError (message : String)
  | debugSuccess
  | debugError (message : String)
deriving DecidableEq, Repr

/-- Resolution of the `chat.completions.create` call: the reply text (`""`
standing in for a `null` content, line 442), an `axios` cancellation, or a
thrown error carrying `error?.response?.status` and `error.message` (`""` for
a falsy message). -/
inductive ApiOutcome where
  | ok (responseText : String)
  | canceled (message : String)
  | httpError (status : Option Nat) (message : String)
deriving DecidableEq, Repr

/-- Lines 35-56: the client exists exactly when both the key and the endpoint
are truthy (non-empty). -/
def initializeAIClients (st : ProcState) : ProcState :=
  { st with aiClientReady := st.aiApiKey != "" && st.aiEndpoint != "" }

inductive SolveResult where
  | success (data : SolutionData)
  | failure (error : String)
deriving DecidableEq, Repr

def SolveResult.isSuccess : SolveResult → Bool
  | .success _ => true
  | .failure _ => false

inductive DebugResult where
  | success (data : DebugData)
  | failure (error : String)
deriving DecidableEq, Repr

structure SolveOut where
  result : SolveResult
  state : ProcState
  events : List Evt
  networkCalled : Bool
deriving DecidableEq, Repr

/-- `processScreenshotsHelper` (lines 346-572).  The screenshot payload only
feeds the request message, which does not influence any modelled observable,
so it is not a parameter.  Note line 515: `problemInfo` is initialised to
`null` at line 444 and never reassigned, so `setProblemInfo(null)` runs on
every reply; and lines 517-538: the success result, the extra-queue clearing
and the success events all require a main window, otherwise the reply
degrades to a tagged failure. -/
def processScreenshotsHelperM (st : ProcState) (api : ApiOutcome) : SolveOut :=
  let ev0 : List Evt :=
    if st.mainWindowPresent then
      [.processingStatus "Analyzing screenshots and generating solution..." 20]
    else []
  let st1 := if st.aiClientReady then st else initializeAIClients st
  if !st1.aiClientReady then
    { result := .failure "AI API key not configured or invalid. Please check your settings."
      state := st1, events := ev0, networkCalled := false }
  else
    match api with
    | .ok responseText =>
      let data := parseSolutionResponse responseText
      let st2 := { st1 with problemInfo := none }
      if st2.mainWindowPresent then
        { result := .success data
          state := { st2 with extraScreenshotQueue := [] }
          events := ev0 ++ [.processingStatus "Solution generated successfully" 100, .solutionSuccess]
          networkCalled := true }
      else
        { result := .failure "Failed to process screenshots"
          state := st2, events := ev0, networkCalled := true }
    | .canceled _ =>
      { result := .failure "Processing was canceled by the user."
        state := st1, events := ev0, networkCalled := true }
    | .httpError status message =>
      -- the `if / else if` chain of lines 549-570
      let msg :=
        if status = some 401 then "Invalid API key. Please check your settings."
        else if status = some 429 then "API rate limit exceeded or insufficient credits. Please try again later."
        else if status = some 500 then "Server error. Please try again later."
        else if message = "" then "Failed to process screenshots. Please try again." else message
      { result := .failure msg, state := st1, events := ev0, networkCalled := true }

structure DebugOut where
  result : DebugResult
  state : ProcState
  events : List Evt
  networkCalled : Bool
deriving DecidableEq, Repr

/-- `processExtraScreenshotsHelper` (lines 581-721).  With no stored problem
record, `throw new Error("No problem info available")` (line 592) is caught by
the function's own `catch` (lines 717-720) and becomes a tagged failure before
any status event or network call.  The `catch` has no special cases, so
cancellations and HTTP errors alike surface as `error.message` (or the
`"Failed to process debug request"` fallback). -/
def processExtraScreenshotsHelperM (st : ProcState) (api : ApiOutcome) : DebugOut :=
  match st.problemInfo with
  | none =>
    { result := .failure "No problem info available"
      state := st, events := [], networkCalled := false }
  | some _ =>
    let ev0 : List Evt :=
      if st.mainWindowPresent then [.processingStatus "Processing debug screenshots..." 30] else []
    let st1 := if st.aiClientReady then st else initializeAIClients st
    if !st1.aiClientReady then
      { result := .failure "AI API key not configured. Please check your settings."
        state := st1, events := ev0, networkCalled := false }
    else
      let ev1 := ev0 ++
        (if st1.mainWindowPresent then
          [Evt.processingStatus "Analyzing code and generating debug feedback..." 60]
         else [])
      match api with
      | .ok debugContent =>
        { result := .success (parseDebugResponse debugContent)
          state := st1
          events := ev1 ++
            (if st1.mainWindowPresent then [Evt.processingStatus "Debug analysis complete" 100] else [])
          networkCalled := true }
      | .canceled message =>
        { result := .failure (if message = "" then "Failed to process debug request" else message)
          state := st1, events := ev1, networkCalled := true }
      | .httpError _ message =>
        { result := .failure (if message = "" then "Failed to process debug request" else message)
          state := st1, events := ev1, networkCalled := true }

structure ProcOut where
  state : ProcState
  events : List Evt
  networkCalled : Bool
deriving DecidableEq, Repr

/-- `processScreenshots` (lines 125-344).  Configuration and input checks run
before the helper is invoked; the screenshot-load failure (`throw` at lines
191/303) is caught by the surrounding `catch`, which sends the error object
and then its message (two error events) in the queue view, or a single
`DEBUG_ERROR` in the solutions view. -/
def processScreenshotsM (st : ProcState) (fsExists readOk : String → Bool)
    (api : ApiOutcome) : ProcOut :=
  if !st.mainWindowPresent then ⟨st, [], false⟩
  else
    let reinit := st.aiApiKey = "" || !st.aiClientReady
    let st1 := if reinit then initializeAIClients st else st
    if reinit && !st1.aiClientReady then ⟨st1, [.apiKeyInvalid], false⟩
    else if st1.view = "queue" then
      let evs0 := [Evt.initialStart]
      let q := st1.screenshotQueue
      if q.isEmpty then ⟨st1, evs0 ++ [.noScreenshots], false⟩
      else
        let existing := q.filter fsExists
        if existing.isEmpty then ⟨st1, evs0 ++ [.noScreenshots], false⟩
        else
          let valid := existing.filter readOk
          if valid.isEmpty then
            ⟨{ st1 with view := "queue" },
             evs0 ++ [.initialSolutionError "Failed to load screenshot data",
                      .initialSolutionError "Failed to load screenshot data"],
             false⟩
          else
            let out := processScreenshotsHelperM st1 api
            match out.result with
            | .failure err =>
              let e := if containsSub err "API Key" || containsSub err "OpenAI" then
                         Evt.apiKeyInvalid
                       else Evt.initialSolutionError err
              ⟨{ out.state with view := "queue" }, evs0 ++ out.events ++ [e], out.networkCalled⟩
            | .success _ =>
              ⟨{ out.state with view := "solutions" },
               evs0 ++ out.events ++ [.solutionSuccess], out.networkCalled⟩
    else
      let xq := st1.extraScreenshotQueue
      if xq.isEmpty then ⟨st1, [.noScreenshots], false⟩
      else
        let existingX := xq.filter fsExists
        if existingX.isEmpty then ⟨st1, [.noScreenshots], false⟩
        else
          let evs0 := [Evt.debugStart]
          let allPaths := st1.screenshotQueue ++ existingX
          let valid := allPaths.filter (fun p => fsExists p && readOk p)
          if valid.isEmpty then
            ⟨st1, evs0 ++ [.debugError "Failed to load screenshot data for debugging"], false⟩
          else
            let out := processExtraScreenshotsHelperM st1 api
            match out.result with
            | .success _ =>
              ⟨{ out.state with hasDebugged := true },
               evs0 ++ out.events ++ [.debugSuccess], out.networkCalled⟩
            | .failure err =>
              ⟨out.state, evs0 ++ out.events ++ [.debugError err], out.networkCalled⟩

/-- `cancelOngoingRequests` (lines 723-746): abort and null both controllers,
unconditionally reset `hasDebugged` and the stored problem record, and notify
`NO_SCREENSHOTS` only when at least one controller was live and the window
exists (and is not destroyed, folded into `mainWindowPresent`). -/
def cancelOngoingRequests (st : ProcState) : ProcState × List Evt :=
  let wasCancelled := st.mainAbortActive || st.extraAbortActive
  let st' := { st with mainAbortActive := false, extraAbortActive := false,
                       hasDebugged := false, problemInfo := none }
  (st', if wasCancelled && st.mainWindowPresent then [.noScreenshots] else [])

/-! ## The configuration store (`ConfigHelper.ts`) -/

structure Config where
  aiApiKey : String
  aiEndpoint : String
  aiModel : String
  language : String
  opacity : Rat
deriving DecidableEq, Repr

/-- `ConfigHelper.defaultConfig` (ConfigHelper.ts lines 64-70). -/
def defaultConfig : Config :=
  { aiApiKey := ""
    aiEndpoint := "https://api.openai.com/v1"
    aiModel := "gpt-4o"
    language := "python"
    opacity := 1 }

/-- The persisted JSON object: any subset of the five fields may be present
(JSON.parse of the file; a present field overrides the default under the
spread `{...this.defaultConfig, ...config}`). -/
structure PartialConfig where
  aiApiKey : Option String := none
  aiEndpoint : Option String := none
  aiModel : Option String := none
  language : Option String := none
  opacity : Option Rat := none
deriving DecidableEq, Repr

/-- The on-disk configuration file: missing, unparsable, or a parsed object. -/
inductive ConfigFile where
  | absent
  | malformed
  | wellFormed (fields : PartialConfig)
deriving DecidableEq, Repr

/-- `loadConfig` (ConfigHelper.ts lines 100-119): spread the parsed object
over the defaults; return the defaults when the file is missing (after
re-creating it) or when reading/parsing throws. -/
def loadConfig : ConfigFile → Config
  | .wellFormed p =>
    { aiApiKey := p.aiApiKey.getD defaultConfig.aiApiKey
      aiEndpoint := p.aiEndpoint.getD defaultConfig.aiEndpoint
      aiModel := p.aiModel.getD defaultConfig.aiModel
      language := p.language.getD defaultConfig.language
      opacity := p.opacity.getD defaultConfig.opacity }
  | .absent => defaultConfig
  | .malformed => defaultConfig

/-- `saveConfig` writes the whole object, so every field is present on disk. -/
def saveConfig (c : Config) : ConfigFile :=
  .wellFormed
    { aiApiKey := some c.aiApiKey, aiEndpoint := some c.aiEndpoint,
      aiModel := some c.aiModel, language := some c.language,
      opacity := some c.opacity }

/-- `updateConfig` (lines 141-155): load, merge the updates over the current
values, save; returns the new file contents and the new configuration. -/
def updateConfig (file : ConfigFile) (updates : PartialConfig) : ConfigFile × Config :=
  let current := loadConfig file
  let newConfig : Config :=
    { aiApiKey := updates.aiApiKey.getD current.aiApiKey
      aiEndpoint := updates.aiEndpoint.getD current.aiEndpoint
      aiModel := updates.aiModel.getD current.aiModel
      language := updates.language.getD current.language
      opacity := updates.opacity.getD current.opacity }
  (saveConfig newConfig, newConfig)

/-- `setOpacity` (lines 237-241): clamp to `[0.1, 1.0]` via
`Math.min(1.0, Math.max(0.1, opacity))`, then `updateConfig`. -/
def setOpacity (file : ConfigFile) (x : Rat) : ConfigFile × Config :=
  let validOpacity : Rat := min 1 (max (1 / 10) x)
  updateConfig file { opacity := some validOpacity }

/-! ## Support lemmas -/

theorem isPrefixOf_self_append (a b : List Char) : a.isPrefixOf (a ++ b) = true := by
  induction a with
  | nil => simp [List.isPrefixOf]
  | cons x xs ih => simp [List.isPrefixOf, ih]

theorem listFindIdx_self_append (pat b : List Char) :
    listFindIdx pat (pat ++ b) = some 0 := by
  cases pat with
  | nil => cases b <;> simp [listFindIdx, List.isPrefixOf]
  | cons x xs =>
    show listFindIdx (x :: xs) (x :: (xs ++ b)) = some 0
    simp [listFindIdx, isPrefixOf_self_append]

theorem listFindIdx_cons_of_not (pat : List Char) (x : Char) (xs : List Char)
    (h : pat.isPrefixOf (x :: xs) = false) :
    listFindIdx pat (x :: xs) = (listFindIdx pat xs).map (· + 1) := by
  simp [listFindIdx, h]

theorem dropWhile_append_all (p : Char → Bool) (a l : List Char)
    (h : ∀ x ∈ a, p x = true) :
    (a ++ l).dropWhile p = l.dropWhile p := by
  induction a with
  | nil => rfl
  | cons x xs ih =>
    have hx : p x = true := h x (by simp)
    simp only [List.cons_append, List.dropWhile_cons, hx, if_true]
    exact ih (fun y hy => h y (by simp [hy]))

theorem dropWhile_cons_neg (p : Char → Bool) (x : Char) (l : List Char)
    (h : p x = false) : (x :: l).dropWhile p = x :: l := by
  simp [List.dropWhile_cons, h]

theorem head_false_of_dropWhile_self (p : Char → Bool) (x : Char) (l : List Char)
    (h : (x :: l).dropWhile p = x :: l) : p x = false := by
  by_contra hx
  have hx' : p x = true := by revert hx; cases p x <;> simp
  have h1 : (x :: l).dropWhile p = l.dropWhile p := by simp [List.dropWhile_cons, hx']
  have hlen : (l.dropWhile p).length ≤ l.length := (List.dropWhile_sublist _).length_le
  rw [h1] at h
  have h2 : (l.dropWhile p).length = l.length + 1 := by rw [h]; simp
  omega

theorem drop_len_append (a b : List Char) : (a ++ b).drop a.length = b :=
  List.drop_left a b

theorem take_len_append (a b : List Char) : (a ++ b).take a.length = a :=
  List.take_left a b

theorem take_len_succ_append (a : List Char) (y : Char) (b : List Char) :
    (a ++ y :: b).take (a.length + 1) = a ++ [y] := by
  induction a with
  | nil => simp
  | cons x xs ih => simpa using ih

/-- `matchBetween` on a string that decomposes around a designated pair of
delimiter occurrences, when the search indeed lands on them. -/
theorem matchBetween_delims (d a mid rest : List Char)
    (h1 : listFindIdx d (a ++ (d ++ (mid ++ (d ++ rest)))) = some a.length)
    (h2 : listFindIdx d (mid ++ (d ++ rest)) = some mid.length) :
    matchBetween (a ++ (d ++ (mid ++ (d ++ rest)))) d = some mid := by
  unfold matchBetween
  rw [h1]
  have e0 : a ++ (d ++ (mid ++ (d ++ rest))) = (a ++ d) ++ (mid ++ (d ++ rest)) := by
    simp [List.append_assoc]
  have e1 : (a ++ (d ++ (mid ++ (d ++ rest)))).drop (a.length + d.length) = mid ++ (d ++ rest) := by
    rw [e0, ← List.length_append]
    exact drop_len_append _ _
  simp only [e1, h2]
  have e2 : (mid ++ (d ++ rest)).take mid.length = mid := take_len_append _ _
  rw [e2]

/-- `jsTrim` strips a trailing newline from a string that is already trimmed
on both sides. -/
theorem jsTrim_append_newline (c : List Char)
    (hc1 : c.dropWhile isJsWs = c) (hc2 : c.reverse.dropWhile isJsWs = c.reverse) :
    jsTrim (c ++ ['\n']) = c := by
  cases c with
  | nil =>
    simp [jsTrim, jsTrimLeft, jsTrimRight, List.dropWhile, isJsWs]
  | cons x xs =>
    have hx : isJsWs x = false := head_false_of_dropWhile_self _ _ _ hc1
    have hleft : jsTrimLeft ((x :: xs) ++ ['\n']) = (x :: xs) ++ ['\n'] := by
      simp [jsTrimLeft, List.dropWhile_cons, hx]
    have hrev : ((x :: xs) ++ ['\n']).reverse = '\n' :: (x :: xs).reverse := by
      simp
    unfold jsTrim
    rw [hleft]
    unfold jsTrimRight
    rw [hrev]
    have hnl : isJsWs '\n' = true := by decide
    rw [List.dropWhile_cons]
    simp only [hnl, if_true]
    rw [hc2, List.reverse_reverse]

/-! ## Claim theorems -/

/-- A ready-to-solve helper state used by concrete witnesses. -/
def stReady : ProcState :=
  { aiApiKey := "sk-test", aiEndpoint := "https://api.openai.com/v1", aiModel := "gpt-4o",
    language := "python", aiClientReady := true, mainWindowPresent := true, view := "queue",
    screenshotQueue := ["shot1.png"], extraScreenshotQueue := ["extra1.png"],
    problemInfo := none, hasDebugged := false, mainAbortActive := false, extraAbortActive := false }

/-- Claim C2, counterexample: a reply with no code fence (and no `---CODE---`
section) produces a success record whose `code` field is the empty string —
nothing is substituted; the parser of the initial-solve path has no
placeholder code string. -/
theorem C2_counterexample :
    (processScreenshotsHelperM stReady
        (.ok "I analyzed the problem but could not produce code.")).result =
      SolveResult.success
        { code := ""
          thoughts := ["Solution approach based on efficiency and readability"]
          time_complexity := "O(n) - Linear time complexity"
          space_complexity := "O(n) - Linear space complexity" } := by
  decide

/-- Claim C2, amended: a reply containing no markdown fence and no
`---CODE---` section still yields a success result (a main window being
present), and the record's `code` field is the empty string — not a
placeholder. -/
theorem C2_no_fence_still_success (st : ProcState) (reply : String)
    (hw : st.mainWindowPresent = true) (hr : st.aiClientReady = true)
    (_hnofence : listFindIdx fencePat reply.toList = none)
    (hnosection : listFindIdx codeDelim reply.toList = none) :
    ∃ d, (processScreenshotsHelperM st (.ok reply)).result = SolveResult.success d ∧
      d.code = "" := by
  have hnosection' : listFindIdx codeDelim reply.data = none := hnosection
  refine ⟨parseSolutionResponse reply, ?_, ?_⟩
  · simp [processScreenshotsHelperM, hr, hw]
  · simp [parseSolutionResponse, extractCode, matchBetween, hnosection']

theorem C2_witness :
    ∃ d, (processScreenshotsHelperM stReady (.ok "plain prose reply")).result =
      SolveResult.success d ∧ d.code = "" :=
  C2_no_fence_still_success stReady "plain prose reply" rfl rfl (by decide) (by decide)

/-- Claim C3, counterexample: 502 is in the 5xx range, yet the helper returns
the `Unknown` fallback carrying the upstream message, not the
`"Server error. Please try again later."` result — only status 500 maps to
the latter. -/
theorem C3_counterexample :
    (500 ≤ 502 ∧ 502 < 600) ∧
    (processScreenshotsHelperM stReady (.httpError (some 502) "Bad Gateway")).result =
      SolveResult.failure "Bad Gateway" ∧
    ("Bad Gateway" : String) ≠ "Server error. Please try again later." := by
  refine ⟨by decide, by decide, by decide⟩

/-- Claim C3, amended: with the client configured, 401 maps to the
unauthorized message, 429 to the rate-limit message, and exactly 500 (not the
whole 5xx range) to the server-error message; every other status — including
other 5xx codes — falls to the `Unknown` branch carrying the upstream message
(or its fixed fallback); cancellation resolves to its own tagged result.  All
of these are tagged failures, never throws. -/
theorem C3_status_mapping (st : ProcState) (m : String) (s : Nat)
    (hr : st.aiClientReady = true) :
    (processScreenshotsHelperM st (.httpError (some 401) m)).result =
      SolveResult.failure "Invalid API key. Please check your settings." ∧
    (processScreenshotsHelperM st (.httpError (some 429) m)).result =
      SolveResult.failure "API rate limit exceeded or insufficient credits. Please try again later." ∧
    (processScreenshotsHelperM st (.httpError (some 500) m)).result =
      SolveResult.failure "Server error. Please try again later." ∧
    (s ≠ 401 → s ≠ 429 → s ≠ 500 →
      (processScreenshotsHelperM st (.httpError (some s) m)).result =
        SolveResult.failure
          (if m = "" then "Failed to process screenshots. Please try again." else m)) ∧
    (processScreenshotsHelperM st (.canceled m)).result =
      SolveResult.failure "Processing was canceled by the user." := by
  refine ⟨?_, ?_, ?_, ?_, ?_⟩
  · simp [processScreenshotsHelperM, hr]
  · simp [processScreenshotsHelperM, hr]
  · simp [processScreenshotsHelperM, hr]
  · intro h1 h2 h3
    simp [processScreenshotsHelperM, hr, h1, h2, h3]
  · simp [processScreenshotsHelperM, hr]

theorem C3_witness :
    (processScreenshotsHelperM stReady (.httpError (some 503) "oops")).result =
      SolveResult.failure "oops" :=
  ((C3_status_mapping stReady "oops" 503 rfl).2.2.2.1 (by decide) (by decide) (by decide)).trans
    (by decide)

/-- Claim C4: with no API key the orchestrator re-initialises the client,
finds it still missing, emits only the `api-key-invalid` event and returns —
no network call is issued and nothing else changes. -/
theorem C4_missing_key_not_configured (st : ProcState) (fsExists readOk : String → Bool)
    (api : ApiOutcome) (hkey : st.aiApiKey = "") (hw : st.mainWindowPresent = true) :
    processScreenshotsM st fsExists readOk api =
      ⟨initializeAIClients st, [Evt.apiKeyInvalid], false⟩ := by
  simp [processScreenshotsM, initializeAIClients, hkey, hw]

theorem C4_witness :
    processScreenshotsM { stReady with aiApiKey := "" } (fun _ => true) (fun _ => true)
        (.ok "reply") =
      ⟨initializeAIClients { stReady with aiApiKey := "" }, [Evt.apiKeyInvalid], false⟩ :=
  C4_missing_key_not_configured _ _ _ _ rfl rfl

/-- Claim C5: in the queue view with a configured client, when every queued
path is missing on disk (in particular when the queue is empty), the
orchestrator emits `initial-start` then `no-screenshots` and returns
unchanged, without a network call. -/
theorem C5_all_paths_missing_no_screenshots (st : ProcState) (fsExists readOk : String → Bool)
    (api : ApiOutcome)
    (hw : st.mainWindowPresent = true) (hkey : st.aiApiKey ≠ "") (hcl : st.aiClientReady = true)
    (hview : st.view = "queue")
    (hmiss : ∀ p ∈ st.screenshotQueue, fsExists p = false) :
    processScreenshotsM st fsExists readOk api =
      ⟨st, [Evt.initialStart, Evt.noScreenshots], false⟩ := by
  have hfil : st.screenshotQueue.filter fsExists = [] :=
    List.filter_eq_nil_iff.mpr (by intro a ha; simp [hmiss a ha])
  cases hq : st.screenshotQueue with
  | nil => simp [processScreenshotsM, hw, hkey, hcl, hview, hq]
  | cons x xs =>
    rw [hq] at hfil
    simp [processScreenshotsM, hw, hkey, hcl, hview, hq, hfil]

theorem C5_witness :
    processScreenshotsM stReady (fun _ => false) (fun _ => true) (.ok "reply") =
      ⟨stReady, [Evt.initialStart, Evt.noScreenshots], false⟩ :=
  C5_all_paths_missing_no_screenshots stReady _ _ _ rfl (by decide) rfl rfl
    (fun _ _ => rfl)

/-- Claim C6: `cancelOngoingRequests` is idempotent (a second call leaves the
state fixed and emits nothing); every call clears both abort controllers and
the stored problem/debug record (also with nothing in flight); with a live
window, the `no-screenshots` notification fires exactly once when a request
was in flight and never otherwise. -/
theorem C6_cancel_idempotent (st : ProcState) :
    (cancelOngoingRequests (cancelOngoingRequests st).1).1 = (cancelOngoingRequests st).1 ∧
    (cancelOngoingRequests (cancelOngoingRequests st).1).2 = [] ∧
    (cancelOngoingRequests st).1.mainAbortActive = false ∧
    (cancelOngoingRequests st).1.extraAbortActive = false ∧
    (cancelOngoingRequests st).1.problemInfo = none ∧
    (cancelOngoingRequests st).1.hasDebugged = false ∧
    (st.mainWindowPresent = true → (st.mainAbortActive || st.extraAbortActive) = true →
      (cancelOngoingRequests st).2 = [Evt.noScreenshots]) ∧
    ((st.mainAbortActive || st.extraAbortActive) = false →
      (cancelOngoingRequests st).2 = []) := by
  refine ⟨?_, ?_, rfl, rfl, rfl, rfl, ?_, ?_⟩
  · rfl
  · simp [cancelOngoingRequests]
  · intro hw hf; simp [cancelOngoingRequests, hw, hf]
  · intro hf; simp [cancelOngoingRequests, hf]

theorem C6_witness :
    (cancelOngoingRequests { stReady with mainAbortActive := true }).2 = [Evt.noScreenshots] ∧
    (cancelOngoingRequests (cancelOngoingRequests { stReady with mainAbortActive := true }).1).2 = [] ∧
    (cancelOngoingRequests { stReady with mainAbortActive := true }).1.problemInfo = none :=
  ⟨(C6_cancel_idempotent { stReady with mainAbortActive := true }).2.2.2.2.2.2.1 rfl rfl,
   (C6_cancel_idempotent { stReady with mainAbortActive := true }).2.1,
   (C6_cancel_idempotent { stReady with mainAbortActive := true }).2.2.2.2.1⟩

/-- Claim C7: with no stored problem record, the debug helper fails with the
tagged `"No problem info available"` result before emitting any event or
issuing any network call, leaving the state untouched. -/
theorem C7_no_prior_record_tagged_failure (st : ProcState) (api : ApiOutcome)
    (h : st.problemInfo = none) :
    processExtraScreenshotsHelperM st api =
      { result := .failure "No problem info available", state := st,
        events := [], networkCalled := false } := by
  simp [processExtraScreenshotsHelperM, h]

theorem C7_witness :
    processExtraScreenshotsHelperM stReady (.ok "analysis") =
      { result := .failure "No problem info available", state := stReady,
        events := [], networkCalled := false } :=
  C7_no_prior_record_tagged_failure stReady _ rfl

/-- Claim C8: `loadConfig` yields exactly the defaults for an absent or
malformed file, and for a parsed object every absent field falls back to its
documented default while every present field is taken verbatim. -/
theorem C8_loadConfig_merges_defaults (p : PartialConfig) :
    loadConfig ConfigFile.absent = defaultConfig ∧
    loadConfig ConfigFile.malformed = defaultConfig ∧
    (p.aiApiKey = none → (loadConfig (ConfigFile.wellFormed p)).aiApiKey = "") ∧
    (p.aiEndpoint = none →
      (loadConfig (ConfigFile.wellFormed p)).aiEndpoint = "https://api.openai.com/v1") ∧
    (p.aiModel = none → (loadConfig (ConfigFile.wellFormed p)).aiModel = "gpt-4o") ∧
    (p.language = none → (loadConfig (ConfigFile.wellFormed p)).language = "python") ∧
    (p.opacity = none → (loadConfig (ConfigFile.wellFormed p)).opacity = 1) ∧
    (∀ v, p.aiApiKey = some v → (loadConfig (ConfigFile.wellFormed p)).aiApiKey = v) ∧
    (∀ v, p.aiEndpoint = some v → (loadConfig (ConfigFile.wellFormed p)).aiEndpoint = v) ∧
    (∀ v, p.aiModel = some v → (loadConfig (ConfigFile.wellFormed p)).aiModel = v) ∧
    (∀ v, p.language = some v → (loadConfig (ConfigFile.wellFormed p)).language = v) ∧
    (∀ v, p.opacity = some v → (loadConfig (ConfigFile.wellFormed p)).opacity = v) := by
  refine ⟨rfl, rfl, ?_, ?_, ?_, ?_, ?_, ?_, ?_, ?_, ?_, ?_⟩ <;>
    first
    | (intro h; simp [loadConfig, defaultConfig, h])
    | (intro v h; simp [loadConfig, defaultConfig, h])

theorem C8_witness :
    (loadConfig (ConfigFile.wellFormed { language := some "java" })).language = "java" ∧
    (loadConfig (ConfigFile.wellFormed { language := some "java" })).aiModel = "gpt-4o" ∧
    loadConfig ConfigFile.malformed = defaultConfig :=
  ⟨(C8_loadConfig_merges_defaults { language := some "java" }).2.2.2.2.2.2.2.2.2.2.1 "java" rfl,
   (C8_loadConfig_merges_defaults { language := some "java" }).2.2.2.2.1 rfl,
   (C8_loadConfig_merges_defaults { language := some "java" }).2.1⟩

/-- Claim C9: `setOpacity` applies and persists exactly
`min 1 (max 0.1 x)`, so the resulting opacity — both the value applied and
the one read back from the saved file — always lies in `[0.1, 1]`. -/
theorem C9_setOpacity_clamps (file : ConfigFile) (x : Rat) :
    (setOpacity file x).2.opacity = min 1 (max (1 / 10) x) ∧
    (1 / 10 : Rat) ≤ (setOpacity file x).2.opacity ∧
    (setOpacity file x).2.opacity ≤ 1 ∧
    (loadConfig (setOpacity file x).1).opacity = (setOpacity file x).2.opacity := by
  refine ⟨rfl, ?_, ?_, rfl⟩
  · show (1 / 10 : Rat) ≤ min 1 (max (1 / 10) x)
    exact le_min (by norm_num) (le_max_left _ _)
  · show min 1 (max (1 / 10) x) ≤ 1
    exact min_le_left _ _

/-- Claim C10: an initial-solve helper success clears the auxiliary (extra)
screenshot queue; any failure leaves it unchanged. -/
theorem C10_success_clears_extra_queue (st : ProcState) (api : ApiOutcome) :
    ((processScreenshotsHelperM st api).result.isSuccess = true →
      (processScreenshotsHelperM st api).state.extraScreenshotQueue = []) ∧
    ((processScreenshotsHelperM st api).result.isSuccess = false →
      (processScreenshotsHelperM st api).state.extraScreenshotQueue =
        st.extraScreenshotQueue) := by
  unfold processScreenshotsHelperM
  by_cases hr : st.aiClientReady
  · simp only [hr, if_true, Bool.not_true, Bool.false_eq_true, if_false]
    cases api with
    | ok text =>
      by_cases hw : st.mainWindowPresent <;> simp [hw, SolveResult.isSuccess]
    | canceled m => simp [SolveResult.isSuccess]
    | httpError s m => simp [SolveResult.isSuccess]
  · simp only [hr, if_false]
    by_cases hk : st.aiApiKey = "" ∨ st.aiEndpoint = "" <;>
      cases api <;>
        by_cases hw : st.mainWindowPresent <;>
          simp [initializeAIClients, hk, hw, SolveResult.isSuccess]

theorem C10_witness :
    (processScreenshotsHelperM stReady (.ok "reply")).state.extraScreenshotQueue = [] ∧
    (processScreenshotsHelperM stReady
        (.httpError (some 500) "m")).state.extraScreenshotQueue =
      stReady.extraScreenshotQueue :=
  ⟨(C10_success_clears_extra_queue stReady (.ok "reply")).1 rfl,
   (C10_success_clears_extra_queue stReady (.httpError (some 500) "m")).2 rfl⟩

/-! ## The round-trip claim (C1) -/

/-- The backtick character, named for use in symbolic proofs. -/
def backq : Char := Char.ofNat 96

theorem fencePat_eq : fencePat = [backq, backq, backq] := by decide

/-- The canonical body of a well-formed `---CODE---` section, as the prompt
instructs the model to produce it: a fenced block whose info string is `lang`
and whose content is `c`. -/
def codeMidOf (lang c : List Char) : List Char :=
  '\n' :: (fencePat ++ (lang ++ ('\n' :: (c ++ ('\n' :: (fencePat ++ ['\n']))))))

/-- A reply containing a well-formed `---CODE---` section followed by a
`---THOUGHTS---` block `t`, with arbitrary surrounding text. -/
def replyOf (pre lang c mid t post : List Char) : List Char :=
  pre ++ (codeDelim ++ (codeMidOf lang c ++ (codeDelim ++
    (mid ++ (thoughtsDelim ++ (t ++ (thoughtsDelim ++ post)))))))

/-- The parsed form of a well-formed JSON thoughts block carrying the four
documented fields. -/
def thoughtsJsonOf (qs apps walk ecs : List String) : Json :=
  Json.obj [("questions_to_ask", Json.arr (qs.map Json.str)),
            ("solution_approaches", Json.arr (apps.map Json.str)),
            ("walkthrough", Json.arr (walk.map Json.str)),
            ("edge_cases", Json.arr (ecs.map Json.str))]

theorem listFindIdx_fence_after_newline (X : List Char) :
    listFindIdx fencePat ('\n' :: (fencePat ++ X)) = some 1 := by
  have hb : ¬ backq = '\n' := by decide
  have hpre : fencePat.isPrefixOf ('\n' :: (fencePat ++ X)) = false := by
    rw [fencePat_eq]; simp [List.isPrefixOf, hb]
  rw [listFindIdx_cons_of_not _ _ _ hpre, listFindIdx_self_append]
  rfl

/-- One unfolding step of the fence scan on a string that starts with a
newline and the opening fence. -/
theorem fenceInner_cons_fence (tail : List Char) :
    fenceInner ('\n' :: (fencePat ++ tail)) =
      (match listFindIdx fencePat ((tail.dropWhile isWordChar).dropWhile isJsWs) with
       | none => none
       | some j => some (((tail.dropWhile isWordChar).dropWhile isJsWs).take j)) := by
  unfold fenceInner
  rw [listFindIdx_fence_after_newline]
  rfl

theorem toJsStringF_str (f : Nat) (s : String) : Json.toJsStringF f (.str s) = s := by
  cases f <;> rfl

theorem map_str_tag (f : Nat) (tag : String) (l : List String) :
    (l.map Json.str).map (fun j => tag ++ Json.toJsStringF f j) =
      l.map (fun s => tag ++ s) := by
  induction l with
  | nil => rfl
  | cons x xs ih => simp [toJsStringF_str, ih]

theorem toJsStringF_arr_strs (n : Nat) (walk : List String) :
    Json.toJsStringF (n + 1) (.arr (walk.map .str)) = String.intercalate "," walk := by
  show String.intercalate ","
      ((walk.map Json.str).map (fun e => match e with | .null => "" | x => Json.toJsStringF n x)) =
    String.intercalate "," walk
  congr 1
  induction walk with
  | nil => rfl
  | cons x xs ih => simpa [toJsStringF_str] using ih

/-- The fence scan on a canonical code section: the capture is the code plus
the conventional trailing newline, which trimming removes. -/
theorem fenceInner_canonical (lang c fin : List Char)
    (hlang : ∀ x ∈ lang, isWordChar x = true)
    (hc1 : c.dropWhile isJsWs = c) (hc2 : c.reverse.dropWhile isJsWs = c.reverse)
    (h5 : listFindIdx fencePat (c ++ ('\n' :: (fencePat ++ fin))) = some (c.length + 1)) :
    ∃ cap,
      fenceInner ('\n' :: (fencePat ++ (lang ++ ('\n' :: (c ++ ('\n' :: (fencePat ++ fin))))))) =
        some cap ∧
      jsTrim cap = c := by
  rw [fenceInner_cons_fence]
  have hW : ((lang ++ ('\n' :: (c ++ ('\n' :: (fencePat ++ fin))))).dropWhile isWordChar) =
      '\n' :: (c ++ ('\n' :: (fencePat ++ fin))) := by
    rw [dropWhile_append_all _ _ _ hlang]
    exact dropWhile_cons_neg _ _ _ (by decide)
  rw [hW]
  have hnl : isJsWs '\n' = true := by decide
  cases c with
  | nil =>
    have hS : ('\n' :: (([] : List Char) ++ ('\n' :: (fencePat ++ fin)))).dropWhile isJsWs =
        fencePat ++ fin := by
      simp only [List.nil_append, List.dropWhile_cons, hnl, if_true]
      rw [fencePat_eq]
      exact dropWhile_cons_neg _ _ _ (by decide)
    rw [hS, listFindIdx_self_append]
    exact ⟨[], rfl, rfl⟩
  | cons ch c' =>
    have hx : isJsWs ch = false := head_false_of_dropWhile_self _ _ _ hc1
    have hS : ('\n' :: ((ch :: c') ++ ('\n' :: (fencePat ++ fin)))).dropWhile isJsWs =
        (ch :: c') ++ ('\n' :: (fencePat ++ fin)) := by
      simp only [List.cons_append, List.dropWhile_cons, hnl, if_true, hx,
        Bool.false_eq_true, if_false]
    rw [hS, h5]
    exact ⟨(ch :: c') ++ ['\n'],
      congrArg some (take_len_succ_append (ch :: c') '\n' (fencePat ++ fin)),
      jsTrim_append_newline _ hc1 hc2⟩

/-- The structured-thoughts extraction on a reply whose `---THOUGHTS---` block
parses to the four documented fields. -/
theorem extractThoughts_structured (s t : List Char) (qs apps walk ecs : List String)
    (hm : matchBetween s thoughtsDelim = some t)
    (hj : jsonParse (jsTrim t) = some (thoughtsJsonOf qs apps walk ecs)) :
    extractThoughts s =
      qs.map (fun q => "[QUESTIONS TO ASK] " ++ q) ++
      (apps.map (fun a => "[SOLUTION APPROACHES] " ++ a) ++
      (("[WALKTHROUGH] " ++ String.intercalate "," walk) ::
       ecs.map (fun e => "[EDGE CASES] " ++ e))) := by
  unfold extractThoughts
  rw [hm]
  simp only []
  rw [hj]
  simp only [thoughtsJsonOf, Json.getProp, getFieldLast, Json.truthy, Json.isArr,
    Json.getElems]
  simp only [String.reduceEq, if_false, if_true, reduceCtorEq, Bool.and_self]
  rw [map_str_tag, map_str_tag, map_str_tag, toJsStringF_arr_strs]
  simp

/-- Claim C1: for every reply containing a well-formed `---CODE---` section
(its first delimiter pair enclosing a canonical fenced block whose content `c`
carries no surrounding whitespace, the designated closing fence being the
first one after the content) and a well-formed JSON `---THOUGHTS---` block
parsing to the four documented fields, the record returned by
`processScreenshotsHelper` is a success whose `code` field is `c` verbatim and
whose `thoughts` field consists exactly of the tagged entries of the parsed
`questions_to_ask`, `solution_approaches`, `walkthrough` (the array joined by
commas, as the template-literal stringification does) and `edge_cases`
fields, in that order. -/
theorem C1_roundtrip (st : ProcState) (pre lang c mid t post : List Char)
    (qs apps walk ecs : List String)
    (hw : st.mainWindowPresent = true) (hr : st.aiClientReady = true)
    (hlang : ∀ x ∈ lang, isWordChar x = true)
    (hc1 : c.dropWhile isJsWs = c) (hc2 : c.reverse.dropWhile isJsWs = c.reverse)
    (h1 : listFindIdx codeDelim (replyOf pre lang c mid t post) = some pre.length)
    (h2 : listFindIdx codeDelim
        (codeMidOf lang c ++ (codeDelim ++ (mid ++ (thoughtsDelim ++ (t ++ (thoughtsDelim ++ post)))))) =
      some (codeMidOf lang c).length)
    (h3 : listFindIdx thoughtsDelim (replyOf pre lang c mid t post) =
      some (pre ++ (codeDelim ++ (codeMidOf lang c ++ (codeDelim ++ mid)))).length)
    (h4 : listFindIdx thoughtsDelim (t ++ (thoughtsDelim ++ post)) = some t.length)
    (h5 : listFindIdx fencePat (c ++ ('\n' :: (fencePat ++ ['\n']))) = some (c.length + 1))
    (h6 : jsonParse (jsTrim t) = some (thoughtsJsonOf qs apps walk ecs)) :
    ∃ d,
      (processScreenshotsHelperM st
          (.ok (String.mk (replyOf pre lang c mid t post)))).result =
        SolveResult.success d ∧
      d.code = String.mk c ∧
      d.thoughts =
        qs.map (fun q => "[QUESTIONS TO ASK] " ++ q) ++
        (apps.map (fun a => "[SOLUTION APPROACHES] " ++ a) ++
        (("[WALKTHROUGH] " ++ String.intercalate "," walk) ::
         ecs.map (fun e => "[EDGE CASES] " ++ e))) := by
  -- the outer `---CODE---` capture is the canonical fenced section
  have hcodeBetween :
      matchBetween (replyOf pre lang c mid t post) codeDelim = some (codeMidOf lang c) := by
    unfold replyOf at h1 ⊢
    exact matchBetween_delims codeDelim pre (codeMidOf lang c) _ h1 h2
  -- the fence capture inside it trims to `c`
  obtain ⟨cap, hcap, htrim⟩ :=
    fenceInner_canonical lang c ['\n'] hlang hc1 hc2 h5
  have hcode : extractCode (replyOf pre lang c mid t post) = String.mk c := by
    unfold extractCode
    rw [hcodeBetween]
    show (match fenceInner (codeMidOf lang c) with
      | some inner => String.mk (jsTrim inner)
      | none => String.mk (jsTrim (codeMidOf lang c))) = String.mk c
    unfold codeMidOf
    rw [hcap]
    show String.mk (jsTrim cap) = String.mk c
    rw [htrim]
  -- the `---THOUGHTS---` capture is `t`
  have hsplit : replyOf pre lang c mid t post =
      (pre ++ (codeDelim ++ (codeMidOf lang c ++ (codeDelim ++ mid)))) ++
        (thoughtsDelim ++ (t ++ (thoughtsDelim ++ post))) := by
    unfold replyOf
    simp [List.append_assoc]
  have hthoughtsBetween :
      matchBetween (replyOf pre lang c mid t post) thoughtsDelim = some t := by
    rw [hsplit]
    rw [hsplit] at h3
    exact matchBetween_delims thoughtsDelim _ t post h3 h4
  have hthoughts := extractThoughts_structured _ t qs apps walk ecs hthoughtsBetween h6
  -- assemble the record
  refine ⟨parseSolutionResponse (String.mk (replyOf pre lang c mid t post)), ?_, ?_, ?_⟩
  · simp [processScreenshotsHelperM, hr, hw]
  · show extractCode (String.mk (replyOf pre lang c mid t post)).toList = String.mk c
    exact hcode
  · show (if (extractThoughts (String.mk (replyOf pre lang c mid t post)).toList).length > 0
        then extractThoughts (String.mk (replyOf pre lang c mid t post)).toList
        else ["Solution approach based on efficiency and readability"]) = _
    have ht' : extractThoughts (String.mk (replyOf pre lang c mid t post)).toList =
        qs.map (fun q => "[QUESTIONS TO ASK] " ++ q) ++
        (apps.map (fun a => "[SOLUTION APPROACHES] " ++ a) ++
        (("[WALKTHROUGH] " ++ String.intercalate "," walk) ::
         ecs.map (fun e => "[EDGE CASES] " ++ e))) := hthoughts
    rw [ht']
    have hpos : 0 < (qs.map (fun q => "[QUESTIONS TO ASK] " ++ q) ++
        (apps.map (fun a => "[SOLUTION APPROACHES] " ++ a) ++
        (("[WALKTHROUGH] " ++ String.intercalate "," walk) ::
         ecs.map (fun e => "[EDGE CASES] " ++ e)))).length := by
      simp [List.length_append]
    simp [hpos]

/-- The thoughts block text used by the concrete C1 witness. -/
def c1ThoughtsText : List Char :=
  ("\n\x7b \"questions_to_ask\": [\"q1\", \"q2\"], \"solution_approaches\": [\"a1\"], " ++
   "\"walkthrough\": [\"s1\", \"s2\"], \"edge_cases\": [\"e1\"] \x7d\n").toList

set_option maxRecDepth 100000 in
theorem C1_witness :
    ∃ d,
      (processScreenshotsHelperM stReady
          (.ok (String.mk (replyOf [] "python".toList "return 42;".toList "\n\n".toList
            c1ThoughtsText "\n".toList)))).result = SolveResult.success d ∧
      d.code = String.mk "return 42;".toList ∧
      d.thoughts =
        ["q1", "q2"].map (fun q => "[QUESTIONS TO ASK] " ++ q) ++
        (["a1"].map (fun a => "[SOLUTION APPROACHES] " ++ a) ++
        (("[WALKTHROUGH] " ++ String.intercalate "," ["s1", "s2"]) ::
         ["e1"].map (fun e => "[EDGE CASES] " ++ e))) :=
  C1_roundtrip stReady [] "python".toList "return 42;".toList "\n\n".toList
    c1ThoughtsText "\n".toList ["q1", "q2"] ["a1"] ["s1", "s2"] ["e1"]
    rfl rfl (by decide) (by decide) (by decide)
    (by decide) (by decide) (by decide) (by decide) (by decide) (by rfl)

end InterviewCoder
